import Mathlib

/-
Shallow embedding of src/havagbot.py (TelegramBotHavag).

The program is a small Telegram bot: it reads an INI config, gates each
handler behind an allow-list of chat ids, fetches tram departures from a
remote Hessian endpoint, filters them by destination, picks the one with the
smallest (minutes, seconds) delta against the current time, and formats it.

Python datetimes are modelled at whole-second granularity: a `Datetime`
carries the civil fields and `toSecs` converts it to an absolute count of
seconds (days since the civil epoch times 86400 plus the seconds of day).
The Python expression `(time - now).seconds` on a `timedelta` is the
normalized seconds-of-day component, i.e. the total second difference
reduced modulo 86400 with a nonnegative result; `pySeconds` models it with
`Int.emod`.
-/

namespace Havag

set_option autoImplicit false

/-- Civil date-time at second granularity, the model of a Python `datetime`
(microseconds are not modelled; all timestamps in the program are parsed
from whole-second strings). -/
structure Datetime where
  year : Int
  month : Nat
  day : Nat
  hour : Nat
  minute : Nat
  second : Nat
  deriving DecidableEq, Repr

/-- Days from the civil epoch 1970-01-01 (Howard Hinnant's `days_from_civil`
algorithm, using truncating integer division as in C++/Python's datetime
internals). -/
def daysFromCivil (y : Int) (m d : Nat) : Int :=
  let y2 : Int := if m ≤ 2 then y - 1 else y
  let era : Int := (if 0 ≤ y2 then y2 else y2 - 399) / 400
  let yoe : Int := y2 - era * 400
  let mp : Int := (Int.ofNat m + 9) % 12
  let doy : Int := (153 * mp + 2) / 5 + Int.ofNat d - 1
  let doe : Int := yoe * 365 + yoe / 4 - yoe / 100 + doy
  era * 146097 + doe - 719468

/-- Absolute second count of a `Datetime` (seconds since 1970-01-01 00:00:00). -/
def toSecs (t : Datetime) : Int :=
  daysFromCivil t.year t.month t.day * 86400
    + Int.ofNat (t.hour * 3600 + t.minute * 60 + t.second)

/-- Model of Python `(time - now).seconds`: the normalized seconds component
of a `timedelta`, i.e. the signed second difference reduced modulo 86400 to
a value in `[0, 86400)`. -/
def pySeconds (t now : Int) : Nat :=
  ((t - now) % 86400).toNat

/-- Model of `divmod((time - now).seconds, 60)` from
`HavagBot.get_connections`. -/
def pyDelta (t now : Int) : Nat × Nat :=
  (pySeconds t now / 60, pySeconds t now % 60)

/-- Split a character list at every occurrence of `sep`, keeping empty
pieces: the semantics of Python `str.split(sep)` with a one-character
separator (so the empty string yields `[[]]`). -/
def splitOnChar (sep : Char) : List Char → List (List Char)
  | [] => [[]]
  | c :: cs =>
    let r := splitOnChar sep cs
    if c = sep then [] :: r
    else
      match r with
      | [] => [[c]]
      | g :: gs => (c :: g) :: gs

/-- Python `str.split(sep)` on strings. -/
def pySplit (sep : Char) (s : String) : List String :=
  (splitOnChar sep s.data).map fun cs => String.mk cs

/-- Value of a decimal digit character, `none` on anything else. -/
def digitVal (c : Char) : Option Nat :=
  if c.isDigit then some (c.toNat - 48) else none

def parseNatAux : List Char → Nat → Option Nat
  | [], acc => some acc
  | c :: cs, acc =>
    match digitVal c with
    | some d => parseNatAux cs (acc * 10 + d)
    | none => none

/-- Parse a nonempty all-digit character list as a natural number. -/
def parseNat : List Char → Option Nat
  | [] => none
  | cs => parseNatAux cs 0

/-- Model of Python `int(s)`: strips surrounding whitespace, allows one
leading sign, then decimal digits; any other input raises `ValueError`,
modelled as `none`. -/
def pyInt (s : String) : Option Int :=
  let cs := ((s.data.dropWhile Char.isWhitespace).reverse.dropWhile
      Char.isWhitespace).reverse
  match cs with
  | '-' :: rest => (parseNat rest).map fun n => -(Int.ofNat n)
  | '+' :: rest => (parseNat rest).map Int.ofNat
  | rest => (parseNat rest).map Int.ofNat

/-- Model of `datetime.strptime(time, "%Y.%m.%d.%H:%M:%S")`: three
dot-separated date fields, then colon-separated time fields, each a decimal
number, with the time-of-day and month/day fields range-checked; a failure
raises `ValueError`, modelled as `none`. -/
def strptimeYmdHMS (s : String) : Option Datetime :=
  match splitOnChar '.' s.data with
  | [ys, ms, ds, hms] =>
    match splitOnChar ':' hms with
    | [hs, mins, secs] =>
      match parseNat ys, parseNat ms, parseNat ds,
          parseNat hs, parseNat mins, parseNat secs with
      | some y, some mo, some d, some h, some mi, some se =>
        if 1 ≤ mo ∧ mo ≤ 12 ∧ 1 ≤ d ∧ d ≤ 31 ∧ h < 24 ∧ mi < 60 ∧ se < 60 then
          some ⟨Int.ofNat y, mo, d, h, mi, se⟩
        else none
      | _, _, _, _, _, _ => none
    | _ => none
  | _ => none

/-- The decimal digit character for `n % 10`. -/
def digitChar (n : Nat) : Char :=
  match n % 10 with
  | 0 => '0' | 1 => '1' | 2 => '2' | 3 => '3' | 4 => '4'
  | 5 => '5' | 6 => '6' | 7 => '7' | 8 => '8' | _ => '9'

/-- Two-digit zero-padded rendering, for `strftime("%H:%M")` fields. -/
def pad2 (n : Nat) : String :=
  String.mk [digitChar (n / 10), digitChar n]

/-- Model of `time.strftime("%H:%M")`. -/
def strftimeHM (t : Datetime) : String :=
  pad2 t.hour ++ ":" ++ pad2 t.minute

def natToStrAux : Nat → Nat → List Char
  | 0, _ => []
  | _ + 1, 0 => []
  | fuel + 1, n => natToStrAux fuel (n / 10) ++ [digitChar n]

/-- Decimal rendering of a natural number (Python `str` / `format` of an
`int`). -/
def natToStr (n : Nat) : String :=
  if n = 0 then "0" else String.mk (natToStrAux (n + 1) n)

/-- Decimal rendering of an integer. -/
def intToStr (i : Int) : String :=
  if i < 0 then "-" ++ natToStr i.natAbs else natToStr i.natAbs

/-- One raw record from `hess_prox.getDeparturesForStop`: the loop header
`for tram, destination, time, *rest in ...` unpacks line, destination and
the scheduled-time string; any extra fields land in `rest` and are unused. -/
structure RawDeparture where
  tram : String
  destination : String
  time : String
  rest : List String := []
  deriving DecidableEq, Repr

/-- The value stored under the key `delta` of a connection dict. It starts
as the `divmod` pair; `return_connection_str` overwrites it in place with
either the minutes scalar or the literal string `< 1`. -/
inductive DeltaVal where
  | pair (minutes seconds : Nat)
  | scalar (minutes : Nat)
  | token
  deriving DecidableEq, Repr

/-- The connection dict built in `HavagBot.get_connections`. -/
structure Connection where
  tram : String
  destination : String
  time : String
  delta : DeltaVal
  deriving DecidableEq, Repr

/-- Model of `HavagBot.get_connections(start, direction)`, with the remote
reply `deps` and the wall clock `now` passed explicitly. Each departure's
time string is parsed (a malformed one raises, modelled as `none`), the
delta is `divmod((time - now).seconds, 60)`, and only departures whose
destination is a member of `direction` are kept, in order. -/
def get_connections (now : Datetime) (deps : List RawDeparture)
    (direction : List String) : Option (List Connection) :=
  match deps with
  | [] => some []
  | d :: ds =>
    match strptimeYmdHMS d.time with
    | none => none
    | some t =>
      match get_connections now ds direction with
      | none => none
      | some tail =>
        if d.destination ∈ direction then
          some ({ tram := d.tram, destination := d.destination,
                  time := strftimeHM t,
                  delta := DeltaVal.pair (pyDelta (toSecs t) (toSecs now)).1
                    (pyDelta (toSecs t) (toSecs now)).2 } :: tail)
        else some tail

/-- Python tuple comparison on the delta values, as used by the `min` key.
The program only ever compares `pair` deltas (comparing a mutated scalar or
token against anything would raise `TypeError` in Python and never happens
on this code path), so other shapes compare as `false`. -/
def ltDelta : DeltaVal → DeltaVal → Bool
  | DeltaVal.pair m1 s1, DeltaVal.pair m2 s2 =>
    decide (m1 < m2 ∨ (m1 = m2 ∧ s1 < s2))
  | _, _ => false

/-- Model of `HavagBot.get_next_connection`:
`min(connections, key=lambda x: x["delta"])`. Python `min` scans left to
right and replaces the current best exactly when the new key is strictly
smaller, so it returns the first minimum; on an empty list it raises
`ValueError`, modelled as `none`. -/
def get_next_connection : List Connection → Option Connection
  | [] => none
  | c :: cs =>
    some (cs.foldl (fun best x => if ltDelta x.delta best.delta then x else best) c)

/-- Rendering of a delta value inside the format string. -/
def deltaRender : DeltaVal → String
  | DeltaVal.token => "< 1"
  | DeltaVal.scalar m => natToStr m
  | DeltaVal.pair m s => "(" ++ natToStr m ++ ", " ++ natToStr s ++ ")"

/-- Model of `HavagBot.return_connection_str`. The connection dict is
mutated: `connection["delta"]` is overwritten with the token `< 1` when the
minutes component is `< 1`, and with the minutes scalar otherwise, before
the string is formatted. Called on an already-mutated connection, Python
would raise a `TypeError` (subscripting an int, or comparing a str with an
int), modelled as `none`. The result is the formatted string together with
the mutated connection. -/
def return_connection_str (c : Connection) : Option (String × Connection) :=
  match c.delta with
  | DeltaVal.pair m _ =>
    let c2 : Connection :=
      if m < 1 then { c with delta := DeltaVal.token }
      else { c with delta := DeltaVal.scalar m }
    some (c2.tram ++ " -> " ++ c2.destination ++ " @ " ++ c2.time
      ++ " (" ++ deltaRender c2.delta ++ " Min.)", c2)
  | _ => none

/-- Model of the body of `HavagBot.home`: fetch and filter the connections
(a `strptime` failure there is outside the `try` and propagates, `none`),
then `try: min` — an empty list's `ValueError` is caught and answered with
the fixed message — else format the winner. The returned string is the text
passed to `bot.sendMessage`. -/
def homeReply (now : Datetime) (deps : List RawDeparture)
    (direction : List String) : Option String :=
  match get_connections now deps direction with
  | none => none
  | some conns =>
    match get_next_connection conns with
    | none => some "Keine Verbindung gefunden."
    | some c => (return_connection_str c).map Prod.fst

/-- Model of the body of `HavagBot.work`, identical to `home` up to which
stop and direction set the caller passes. -/
def workReply (now : Datetime) (deps : List RawDeparture)
    (direction : List String) : Option String :=
  match get_connections now deps direction with
  | none => none
  | some conns =>
    match get_next_connection conns with
    | none => some "Keine Verbindung gefunden."
    | some c => (return_connection_str c).map Prod.fst

/-- The requesting chat of an update: id plus display names, the fields
`check_id` reads. -/
structure Chat where
  chat_id : Int
  first_name : String
  last_name : String
  deriving DecidableEq, Repr

/-- Observable effects of one gated handler invocation: the messages sent
and the warning log lines produced. -/
structure Effects where
  replies : List String
  warnings : List String
  deriving DecidableEq, Repr

/-- The warning line logged by `check_id` for a rejected request. -/
def warnMsg (chat : Chat) : String :=
  "User " ++ chat.first_name ++ " " ++ chat.last_name ++ " with id "
    ++ intToStr chat.chat_id ++ " not in id list"

/-- Python truthiness of `self.allowed_ids`: `None` and the empty list are
falsy. -/
def pyTruthy : Option (List Int) → Bool
  | none => false
  | some l => !l.isEmpty

/-- Model of the `check_id` decorator: the wrapped body (modelled by the
messages `func` would send) runs only when `self.allowed_ids` is truthy and
contains the requesting id; otherwise nothing is sent and one warning is
logged. -/
def check_id (allowed_ids : Option (List Int)) (func : Chat → List String)
    (chat : Chat) : Effects :=
  if pyTruthy allowed_ids ∧ chat.chat_id ∈ allowed_ids.getD [] then
    { replies := func chat, warnings := [] }
  else
    { replies := [], warnings := [warnMsg chat] }

/-- The state of a `configparser.ConfigParser` after `cp.read(filename)`:
sections mapping keys to (already whitespace-stripped) value strings. A
missing or unreadable file simply yields no sections. -/
structure ConfigFile where
  sections : List (String × List (String × String))
  deriving DecidableEq, Repr

/-- Lookup of `cp[name]`; a miss raises `KeyError(name)`. -/
def getSection (cf : ConfigFile) (name : String) :
    Option (List (String × String)) :=
  (cf.sections.find? fun p => p.1 = name).map Prod.snd

/-- Lookup of `section[key]`; a miss raises `KeyError(key)`. -/
def getKey (sec : List (String × String)) (key : String) : Option String :=
  (sec.find? fun p => p.1 = key).map Prod.snd

/-- The error taxonomy of `read_config`: a `KeyError` naming the missing
section or key, or a `ValueError` from `int()` on a non-numeric allow-list
entry. The spec groups all of these under the name `ConfigError`. -/
inductive ConfigError where
  | missingSection (name : String)
  | missingKey (name : String)
  | badInt (entry : String)
  deriving DecidableEq, Repr

/-- The dict returned by `read_config`. -/
structure Config where
  token : String
  home : String
  direction_home : List String
  workplace : String
  direction_workplace : List String
  ids : List Int
  deriving DecidableEq, Repr

/-- The list comprehension `[int(id) for id in ...split(",")]`: entries are
converted left to right and the first non-numeric one raises. -/
def parseIds : List String → Except ConfigError (List Int)
  | [] => Except.ok []
  | s :: ss =>
    match pyInt s with
    | none => Except.error (ConfigError.badInt s)
    | some i => (parseIds ss).map fun l => i :: l

/-- Model of `read_config`, operating on the parsed `ConfigFile`. Lookups
happen in source order: the AUTHENTICATION section, `token`, `allowed_ids`
(split on commas, each entry through `int`), then the LOCATIONS section and
its four keys; the directions are split on commas with no further
processing. -/
def read_config (cf : ConfigFile) : Except ConfigError Config :=
  match getSection cf "AUTHENTICATION" with
  | none => Except.error (ConfigError.missingSection "AUTHENTICATION")
  | some auth =>
    match getKey auth "token" with
    | none => Except.error (ConfigError.missingKey "token")
    | some token =>
      match getKey auth "allowed_ids" with
      | none => Except.error (ConfigError.missingKey "allowed_ids")
      | some idsStr =>
        match parseIds (pySplit ',' idsStr) with
        | Except.error e => Except.error e
        | Except.ok ids =>
          match getSection cf "LOCATIONS" with
          | none => Except.error (ConfigError.missingSection "LOCATIONS")
          | some loc =>
            match getKey loc "workplace" with
            | none => Except.error (ConfigError.missingKey "workplace")
            | some workplace =>
              match getKey loc "direction_workplace" with
              | none => Except.error (ConfigError.missingKey "direction_workplace")
              | some dwp =>
                match getKey loc "home" with
                | none => Except.error (ConfigError.missingKey "home")
                | some home =>
                  match getKey loc "direction_home" with
                  | none => Except.error (ConfigError.missingKey "direction_home")
                  | some dh =>
                    Except.ok
                      { token := token, home := home,
                        direction_home := pySplit ',' dh,
                        workplace := workplace,
                        direction_workplace := pySplit ',' dwp,
                        ids := ids }

/-- A written-out config file holding the six standard values, the shape
the round-trip scenario writes to disk. -/
def mkConfigFile (token idsStr workplace dwp home dh : String) : ConfigFile :=
  { sections :=
    [("AUTHENTICATION", [("token", token), ("allowed_ids", idsStr)]),
     ("LOCATIONS",
       [("workplace", workplace), ("direction_workplace", dwp),
        ("home", home), ("direction_home", dh)])] }

/-- A delta value that still has the original divmod-pair shape. -/
def isPair (d : DeltaVal) : Prop :=
  ∃ m s, d = DeltaVal.pair m s

/-- Lexicographic order on pair-shaped delta values, the order under which
the program's `min` picks its winner. -/
def pairLe : DeltaVal → DeltaVal → Prop
  | DeltaVal.pair m1 s1, DeltaVal.pair m2 s2 => m1 < m2 ∨ (m1 = m2 ∧ s1 ≤ s2)
  | _, _ => False

/-- The delta as the claim's words describe it, for comparison with the
program's `pyDelta`: floor-divmod of the raw second difference between the
scheduled time and now by 60 (`Int.fdiv` and `Int.fmod` are Python's floor
division and floor modulus on the unreduced difference). -/
def specDelta (t now : Int) : Int × Int :=
  ((t - now).fdiv 60, (t - now).fmod 60)

/-- Strict lexicographic comparison of integer pairs (minutes first,
seconds as tie-break), the comparison the claim applies to deltas. -/
def specLexLt (a b : Int × Int) : Prop :=
  a.1 < b.1 ∨ (a.1 = b.1 ∧ a.2 < b.2)

instance (a b : Int × Int) : Decidable (specLexLt a b) := by
  unfold specLexLt
  infer_instance

theorem pairLe_refl (m s : Nat) : pairLe (DeltaVal.pair m s) (DeltaVal.pair m s) :=
  Or.inr ⟨rfl, Nat.le_refl s⟩

theorem pairLe_trans {a b c : DeltaVal} (hab : pairLe a b) (hbc : pairLe b c) :
    pairLe a c := by
  cases a <;> cases b <;> cases c
  all_goals simp only [pairLe] at *
  all_goals omega

theorem ltDelta_true {m1 s1 m2 s2 : Nat}
    (h : ltDelta (DeltaVal.pair m1 s1) (DeltaVal.pair m2 s2) = true) :
    pairLe (DeltaVal.pair m1 s1) (DeltaVal.pair m2 s2) := by
  simp only [ltDelta, decide_eq_true_eq] at h
  simp only [pairLe]
  omega

theorem ltDelta_false {m1 s1 m2 s2 : Nat}
    (h : ltDelta (DeltaVal.pair m1 s1) (DeltaVal.pair m2 s2) = false) :
    pairLe (DeltaVal.pair m2 s2) (DeltaVal.pair m1 s1) := by
  simp only [ltDelta, decide_eq_false_iff_not] at h
  simp only [pairLe]
  omega

/-- The fold of the `min` call lands on its seed or on a list element. -/
theorem foldl_min_mem (cs : List Connection) (b : Connection) :
    cs.foldl (fun best x => if ltDelta x.delta best.delta then x else best) b = b
      ∨ cs.foldl (fun best x => if ltDelta x.delta best.delta then x else best) b ∈ cs := by
  induction cs generalizing b with
  | nil => exact Or.inl rfl
  | cons x xs ih =>
    simp only [List.foldl_cons]
    rcases ih (if ltDelta x.delta b.delta then x else b) with h | h
    · rw [h]
      cases hx : ltDelta x.delta b.delta <;> simp [hx]
    · exact Or.inr (List.mem_cons_of_mem x h)

/-- The fold of the `min` call, seeded and fed with pair-shaped deltas,
ends below its seed and below every list element. -/
theorem foldl_min_le (cs : List Connection) (b : Connection)
    (hb : isPair b.delta) (hcs : ∀ x ∈ cs, isPair x.delta) :
    pairLe (cs.foldl (fun best x => if ltDelta x.delta best.delta then x else best) b).delta
        b.delta
      ∧ ∀ x ∈ cs,
        pairLe (cs.foldl (fun best x => if ltDelta x.delta best.delta then x else best) b).delta
          x.delta := by
  induction cs generalizing b with
  | nil =>
    obtain ⟨m, s, hm⟩ := hb
    refine ⟨?_, by simp⟩
    simpa [hm] using pairLe_refl m s
  | cons x xs ih =>
    obtain ⟨mb, sb, hmb⟩ := hb
    obtain ⟨mx, sx, hmx⟩ := hcs x (List.mem_cons_self x xs)
    have hxs : ∀ y ∈ xs, isPair y.delta := fun y hy => hcs y (List.mem_cons_of_mem x hy)
    simp only [List.foldl_cons]
    cases hlt : ltDelta x.delta b.delta with
    | true =>
      simp only [reduceIte]
      obtain ⟨h1, h2⟩ := ih x ⟨mx, sx, hmx⟩ hxs
      have hxb : pairLe x.delta b.delta := by
        rw [hmx, hmb]
        exact ltDelta_true (by rw [hmx, hmb] at hlt; exact hlt)
      refine ⟨pairLe_trans h1 hxb, ?_⟩
      intro y hy
      rcases List.mem_cons.mp hy with rfl | hy2
      · exact h1
      · exact h2 y hy2
    | false =>
      rw [if_neg Bool.false_ne_true]
      obtain ⟨h1, h2⟩ := ih b ⟨mb, sb, hmb⟩ hxs
      have hbx : pairLe b.delta x.delta := by
        rw [hmx, hmb]
        exact ltDelta_false (by rw [hmx, hmb] at hlt; exact hlt)
      refine ⟨h1, ?_⟩
      intro y hy
      rcases List.mem_cons.mp hy with rfl | hy2
      · exact pairLe_trans h1 hbx
      · exact h2 y hy2

/-- The `min` result is an element of the list. -/
theorem get_next_connection_mem {conns : List Connection} {c : Connection}
    (h : get_next_connection conns = some c) : c ∈ conns := by
  cases conns with
  | nil => simp [get_next_connection] at h
  | cons b cs =>
    simp only [get_next_connection, Option.some.injEq] at h
    rcases foldl_min_mem cs b with h2 | h2
    · rw [← h, h2]; exact List.mem_cons_self b cs
    · rw [← h]; exact List.mem_cons_of_mem b h2

/-- The `min` result is lexicographically below every element, when all
deltas still have the pair shape. -/
theorem get_next_connection_min {conns : List Connection} {c : Connection}
    (hp : ∀ x ∈ conns, isPair x.delta)
    (h : get_next_connection conns = some c) :
    ∀ x ∈ conns, pairLe c.delta x.delta := by
  cases conns with
  | nil => simp [get_next_connection] at h
  | cons b cs =>
    simp only [get_next_connection, Option.some.injEq] at h
    obtain ⟨h1, h2⟩ := foldl_min_le cs b (hp b (List.mem_cons_self b cs))
      (fun x hx => hp x (List.mem_cons_of_mem b hx))
    intro x hx
    rcases List.mem_cons.mp hx with rfl | hx2
    · rw [← h]; exact h1
    · rw [← h]; exact h2 x hx2

/-- Every connection built by `get_connections` records a departure of the
input whose destination passed the filter, with the divmod delta of its
parsed time against `now`. -/
theorem get_connections_sound {now : Datetime} {deps : List RawDeparture}
    {direction : List String} {conns : List Connection}
    (h : get_connections now deps direction = some conns) :
    ∀ c ∈ conns, c.destination ∈ direction
      ∧ ∃ d ∈ deps, ∃ t, strptimeYmdHMS d.time = some t
        ∧ c = { tram := d.tram, destination := d.destination,
                time := strftimeHM t,
                delta := DeltaVal.pair (pyDelta (toSecs t) (toSecs now)).1
                  (pyDelta (toSecs t) (toSecs now)).2 } := by
  induction deps generalizing conns with
  | nil =>
    simp only [get_connections, Option.some.injEq] at h
    subst h
    simp
  | cons d ds ih =>
    simp only [get_connections] at h
    split at h
    · exact Option.noConfusion h
    · rename_i t hparse
      split at h
      · exact Option.noConfusion h
      · rename_i tail hrec
        split at h
        · rename_i hdest
          rw [Option.some.injEq] at h
          subst h
          intro c hc
          rcases List.mem_cons.mp hc with rfl | hc2
          · exact ⟨hdest, d, List.mem_cons_self d ds, t, hparse, rfl⟩
          · obtain ⟨hd1, d2, hd2, t2, hp2, hc3⟩ := ih hrec c hc2
            exact ⟨hd1, d2, List.mem_cons_of_mem d hd2, t2, hp2, hc3⟩
        · rename_i hdest
          rw [Option.some.injEq] at h
          subst h
          intro c hc
          obtain ⟨hd1, d2, hd2, t2, hp2, hc3⟩ := ih hrec c hc
          exact ⟨hd1, d2, List.mem_cons_of_mem d hd2, t2, hp2, hc3⟩

/-- When no departure's destination passes the filter, `get_connections`
returns the empty list. -/
theorem get_connections_empty {now : Datetime} {deps : List RawDeparture}
    {direction : List String} {conns : List Connection}
    (h : get_connections now deps direction = some conns)
    (hno : ∀ d ∈ deps, d.destination ∉ direction) : conns = [] := by
  cases hc : conns with
  | nil => rfl
  | cons c cs =>
    subst hc
    obtain ⟨hd1, d, hd2, t, hp2, hc3⟩ :=
      get_connections_sound h c (List.mem_cons_self c cs)
    have : c.destination = d.destination := by rw [hc3]
    exact absurd (this ▸ hd1) (hno d hd2)

/-- C1 counterexample: with now = 2024-01-01 10:00:00 and two departures to
an allowed destination, one at 09:59:00 and one at 10:01:00, both are
retained, and the 09:59 departure has the strictly smaller delta under the
claim's formula (floor-divmod of the raw second difference, giving
(-1, 0) against (1, 0)), yet the selector returns the 10:01 departure: the
code floor-divides `(time - now).seconds`, the difference reduced modulo
86400, not the raw second difference. -/
theorem selector_claim_delta_counterexample :
    get_connections ⟨2024, 1, 1, 10, 0, 0⟩
        [⟨"A", "X", "2024.01.01.09:59:00", []⟩, ⟨"B", "X", "2024.01.01.10:01:00", []⟩]
        ["X"]
      = some [⟨"A", "X", "09:59", DeltaVal.pair 1439 0⟩,
              ⟨"B", "X", "10:01", DeltaVal.pair 1 0⟩]
    ∧ get_next_connection
        [⟨"A", "X", "09:59", DeltaVal.pair 1439 0⟩,
         ⟨"B", "X", "10:01", DeltaVal.pair 1 0⟩]
      = some ⟨"B", "X", "10:01", DeltaVal.pair 1 0⟩
    ∧ strptimeYmdHMS "2024.01.01.09:59:00" = some ⟨2024, 1, 1, 9, 59, 0⟩
    ∧ strptimeYmdHMS "2024.01.01.10:01:00" = some ⟨2024, 1, 1, 10, 1, 0⟩
    ∧ specDelta (toSecs ⟨2024, 1, 1, 9, 59, 0⟩) (toSecs ⟨2024, 1, 1, 10, 0, 0⟩) = (-1, 0)
    ∧ specDelta (toSecs ⟨2024, 1, 1, 10, 1, 0⟩) (toSecs ⟨2024, 1, 1, 10, 0, 0⟩) = (1, 0)
    ∧ specLexLt (-1, 0) (1, 0)
    ∧ (⟨"B", "X", "10:01", DeltaVal.pair 1 0⟩ : Connection)
        ≠ ⟨"A", "X", "09:59", DeltaVal.pair 1439 0⟩ := by
  decide

/-- C1 (amended): among the departures whose destination is in the set, the
selector returns a retained departure whose delta is lexicographically
smallest (minutes first, seconds as tie-break), where the delta is the pair
obtained by floor-dividing the second-difference reduced modulo 86400 (the
Python timedelta seconds attribute) by 60 and keeping the remainder. -/
theorem selector_returns_min (now : Datetime) (deps : List RawDeparture)
    (direction : List String) (conns : List Connection) (c : Connection)
    (h1 : get_connections now deps direction = some conns)
    (h2 : get_next_connection conns = some c) :
    c ∈ conns
      ∧ (∀ c2 ∈ conns, pairLe c.delta c2.delta)
      ∧ ∃ d ∈ deps, ∃ t, strptimeYmdHMS d.time = some t
          ∧ c.delta = DeltaVal.pair (pySeconds (toSecs t) (toSecs now) / 60)
              (pySeconds (toSecs t) (toSecs now) % 60) := by
  have hmem := get_next_connection_mem h2
  have hpairs : ∀ x ∈ conns, isPair x.delta := by
    intro x hx
    obtain ⟨-, d, -, t, -, hc⟩ := get_connections_sound h1 x hx
    exact ⟨_, _, by rw [hc]⟩
  refine ⟨hmem, get_next_connection_min hpairs h2, ?_⟩
  obtain ⟨-, d, hd, t, hp, hc⟩ := get_connections_sound h1 c hmem
  exact ⟨d, hd, t, hp, by rw [hc]; rfl⟩

/-- Witness for C1 (amended) at the Hauptbahnhof scenario with both
departures toward Schkeuditz: the selector picks the 10:02 departure, the
lexicographic minimum. -/
theorem selector_returns_min_witness :
    (⟨"7", "Schkeuditz", "10:02", DeltaVal.pair 2 0⟩ : Connection) ∈
        ([⟨"3", "Schkeuditz", "10:05", DeltaVal.pair 5 0⟩,
          ⟨"7", "Schkeuditz", "10:02", DeltaVal.pair 2 0⟩] : List Connection)
      ∧ (∀ c2 ∈ ([⟨"3", "Schkeuditz", "10:05", DeltaVal.pair 5 0⟩,
            ⟨"7", "Schkeuditz", "10:02", DeltaVal.pair 2 0⟩] : List Connection),
          pairLe (DeltaVal.pair 2 0) c2.delta)
      ∧ ∃ d ∈ [(⟨"3", "Schkeuditz", "2024.01.01.10:05:00", []⟩ : RawDeparture),
            ⟨"7", "Schkeuditz", "2024.01.01.10:02:00", []⟩],
          ∃ t, strptimeYmdHMS d.time = some t
            ∧ DeltaVal.pair 2 0
              = DeltaVal.pair (pySeconds (toSecs t) (toSecs ⟨2024, 1, 1, 10, 0, 0⟩) / 60)
                  (pySeconds (toSecs t) (toSecs ⟨2024, 1, 1, 10, 0, 0⟩) % 60) :=
  selector_returns_min ⟨2024, 1, 1, 10, 0, 0⟩
    [⟨"3", "Schkeuditz", "2024.01.01.10:05:00", []⟩,
     ⟨"7", "Schkeuditz", "2024.01.01.10:02:00", []⟩]
    ["Schkeuditz"]
    [⟨"3", "Schkeuditz", "10:05", DeltaVal.pair 5 0⟩,
     ⟨"7", "Schkeuditz", "10:02", DeltaVal.pair 2 0⟩]
    ⟨"7", "Schkeuditz", "10:02", DeltaVal.pair 2 0⟩
    (by decide) (by decide)

/-- C2: every connection the selector emits, over any remote departure list
and caller-supplied destination set, has its destination in that set. -/
theorem selector_destination_allowed (now : Datetime) (deps : List RawDeparture)
    (direction : List String) (conns : List Connection) (c : Connection)
    (h1 : get_connections now deps direction = some conns)
    (h2 : get_next_connection conns = some c) :
    c.destination ∈ direction :=
  (get_connections_sound h1 c (get_next_connection_mem h2)).1

/-- Witness for C2 at the Hauptbahnhof scenario. -/
theorem selector_destination_allowed_witness :
    Connection.destination ⟨"3", "Schkeuditz", "10:05", DeltaVal.pair 5 0⟩
      ∈ (["Schkeuditz"] : List String) :=
  selector_destination_allowed ⟨2024, 1, 1, 10, 0, 0⟩
    [⟨"3", "Schkeuditz", "2024.01.01.10:05:00", []⟩,
     ⟨"7", "Leipzig", "2024.01.01.10:02:00", []⟩]
    ["Schkeuditz"]
    [⟨"3", "Schkeuditz", "10:05", DeltaVal.pair 5 0⟩]
    ⟨"3", "Schkeuditz", "10:05", DeltaVal.pair 5 0⟩
    (by decide) (by decide)

/-- C4: when no departure's destination is in the allowed set, the filtered
list is empty, selection fails (the `min` of an empty sequence, the
program's `NoConnectionFound` condition), and both the home and the work
handler catch it and reply with the fixed message. -/
theorem no_connection_found (now : Datetime) (deps : List RawDeparture)
    (direction : List String) (conns : List Connection)
    (h1 : get_connections now deps direction = some conns)
    (hno : ∀ d ∈ deps, d.destination ∉ direction) :
    conns = [] ∧ get_next_connection conns = none
      ∧ homeReply now deps direction = some "Keine Verbindung gefunden."
      ∧ workReply now deps direction = some "Keine Verbindung gefunden." := by
  have hempty := get_connections_empty h1 hno
  subst hempty
  refine ⟨rfl, rfl, ?_, ?_⟩
  · simp [homeReply, h1, get_next_connection]
  · simp [workReply, h1, get_next_connection]

/-- Witness for C4: departures toward Leipzig only, allowed set Dresden. -/
theorem no_connection_found_witness :
    ([] : List Connection) = [] ∧ get_next_connection [] = none
      ∧ homeReply ⟨2024, 1, 1, 10, 0, 0⟩
          [⟨"3", "Schkeuditz", "2024.01.01.10:05:00", []⟩,
           ⟨"7", "Leipzig", "2024.01.01.10:02:00", []⟩] ["Dresden"]
        = some "Keine Verbindung gefunden."
      ∧ workReply ⟨2024, 1, 1, 10, 0, 0⟩
          [⟨"3", "Schkeuditz", "2024.01.01.10:05:00", []⟩,
           ⟨"7", "Leipzig", "2024.01.01.10:02:00", []⟩] ["Dresden"]
        = some "Keine Verbindung gefunden." :=
  no_connection_found ⟨2024, 1, 1, 10, 0, 0⟩
    [⟨"3", "Schkeuditz", "2024.01.01.10:05:00", []⟩,
     ⟨"7", "Leipzig", "2024.01.01.10:02:00", []⟩]
    ["Dresden"] [] (by decide) (by decide)

/-- C5: the formatter renders line, destination, HH:MM time and the minutes
component, with the literal token < 1 exactly when the whole-minute delta is
less than 1; and the Hauptbahnhof scenario (departures to Schkeuditz at
10:05 and Leipzig at 10:02, now 10:00, allowed set Schkeuditz) replies
3 -> Schkeuditz @ 10:05 (5 Min.). -/
theorem format_connection_str (tram dest time : String) (m s : Nat) :
    (return_connection_str ⟨tram, dest, time, DeltaVal.pair m s⟩).map Prod.fst
        = some (tram ++ " -> " ++ dest ++ " @ " ++ time ++ " ("
            ++ (if m < 1 then "< 1" else natToStr m) ++ " Min.)")
      ∧ homeReply ⟨2024, 1, 1, 10, 0, 0⟩
          [⟨"3", "Schkeuditz", "2024.01.01.10:05:00", []⟩,
           ⟨"7", "Leipzig", "2024.01.01.10:02:00", []⟩]
          ["Schkeuditz"]
        = some "3 -> Schkeuditz @ 10:05 (5 Min.)" := by
  constructor
  · by_cases hm : m < 1 <;> simp [return_connection_str, hm, deltaRender]
  · decide

/-- C9: every delta `get_connections` ever stores is a pair with minutes at
most 1439 and seconds at most 59 (the day component of the time difference
is discarded), and shifting a scheduled time by exactly 24 hours leaves the
delta unchanged. -/
theorem delta_always_bounded :
    (∀ (now : Datetime) (deps : List RawDeparture) (direction : List String)
        (conns : List Connection),
      get_connections now deps direction = some conns →
        ∀ c ∈ conns, ∃ m s, c.delta = DeltaVal.pair m s ∧ m ≤ 1439 ∧ s ≤ 59)
      ∧ ∀ t now : Int, pyDelta (t + 86400) now = pyDelta t now := by
  constructor
  · intro now deps direction conns h c hc
    obtain ⟨-, d, -, t, -, hcEq⟩ := get_connections_sound h c hc
    refine ⟨(pyDelta (toSecs t) (toSecs now)).1, (pyDelta (toSecs t) (toSecs now)).2,
      by rw [hcEq], ?_, ?_⟩
    · show pySeconds (toSecs t) (toSecs now) / 60 ≤ 1439
      unfold pySeconds
      omega
    · show pySeconds (toSecs t) (toSecs now) % 60 ≤ 59
      unfold pySeconds
      omega
  · intro t now
    unfold pyDelta pySeconds
    have h : (t + 86400 - now) % 86400 = (t - now) % 86400 := by omega
    rw [h]

/-- Witness for C9: the past departure at 09:59 against now 10:00 stores the
in-range pair (1439, 0), and a 300-second difference keeps its delta under a
24-hour shift. -/
theorem delta_always_bounded_witness :
    (∃ m s, Connection.delta ⟨"A", "X", "09:59", DeltaVal.pair 1439 0⟩
        = DeltaVal.pair m s ∧ m ≤ 1439 ∧ s ≤ 59)
      ∧ pyDelta (300 + 86400) 0 = pyDelta 300 0 :=
  ⟨delta_always_bounded.1 ⟨2024, 1, 1, 10, 0, 0⟩
      [⟨"A", "X", "2024.01.01.09:59:00", []⟩] ["X"]
      [⟨"A", "X", "09:59", DeltaVal.pair 1439 0⟩] (by decide)
      ⟨"A", "X", "09:59", DeltaVal.pair 1439 0⟩ (by decide),
    delta_always_bounded.2 300 0⟩

/-- C10: formatting a connection overwrites its delta field in place — the
token when the minutes are below 1, the minutes scalar otherwise — leaving
every other field unchanged, and a second format call on the mutated
connection does not behave as the first (it raises instead of returning a
string). -/
theorem format_mutates_connection (tram dest time : String) (m s : Nat) :
    ∃ str c2,
      return_connection_str ⟨tram, dest, time, DeltaVal.pair m s⟩ = some (str, c2)
        ∧ c2.tram = tram ∧ c2.destination = dest ∧ c2.time = time
        ∧ c2.delta = (if m < 1 then DeltaVal.token else DeltaVal.scalar m)
        ∧ c2.delta ≠ DeltaVal.pair m s
        ∧ return_connection_str c2 = none := by
  by_cases hm : m < 1
  · refine ⟨tram ++ " -> " ++ dest ++ " @ " ++ time ++ " (" ++ "< 1" ++ " Min.)",
      { tram := tram, destination := dest, time := time, delta := DeltaVal.token },
      ?_, rfl, rfl, rfl, ?_, by simp, rfl⟩
    · simp [return_connection_str, hm, deltaRender]
    · simp [hm]
  · refine ⟨tram ++ " -> " ++ dest ++ " @ " ++ time ++ " (" ++ natToStr m ++ " Min.)",
      { tram := tram, destination := dest, time := time, delta := DeltaVal.scalar m },
      ?_, rfl, rfl, rfl, ?_, by simp, rfl⟩
    · simp [return_connection_str, hm, deltaRender]
    · simp [hm]

/-- C3: the wrapped handler body runs exactly when the allow-list holds at
least one identity and contains the requester's; otherwise nothing is sent
and exactly one warning line is logged — in particular an unset (`None`) or
empty allow-list drops every request. -/
theorem access_gate (allowed_ids : Option (List Int)) (func : Chat → List String)
    (chat : Chat) :
    ((∃ l, allowed_ids = some l ∧ l ≠ [] ∧ chat.chat_id ∈ l) →
        check_id allowed_ids func chat = { replies := func chat, warnings := [] })
      ∧ (¬ (∃ l, allowed_ids = some l ∧ l ≠ [] ∧ chat.chat_id ∈ l) →
          check_id allowed_ids func chat
            = { replies := [], warnings := [warnMsg chat] })
      ∧ ((allowed_ids = none ∨ allowed_ids = some []) →
          check_id allowed_ids func chat
            = { replies := [], warnings := [warnMsg chat] }) := by
  have hcond : (pyTruthy allowed_ids = true ∧ chat.chat_id ∈ allowed_ids.getD [])
      ↔ (∃ l, allowed_ids = some l ∧ l ≠ [] ∧ chat.chat_id ∈ l) := by
    cases allowed_ids with
    | none => simp [pyTruthy]
    | some l => simp [pyTruthy]
  refine ⟨?_, ?_, ?_⟩
  · intro h
    simp only [check_id, if_pos (hcond.mpr h)]
  · intro h
    simp only [check_id, if_neg (fun hc => h (hcond.mp hc))]
  · intro h
    simp only [check_id]
    rw [if_neg]
    intro hc
    obtain ⟨l, hl, hne, -⟩ := hcond.mp hc
    rcases h with h | h
    · rw [h] at hl
      exact Option.noConfusion hl
    · rw [h] at hl
      injection hl with hl
      exact hne hl.symm

/-- Witness for C3: identity 111 against allow-list [111] runs the body;
identity 999 produces no reply and exactly one warning. -/
theorem access_gate_witness :
    (check_id (some [111]) (fun _ => ["Hello"]) ⟨111, "A", "B"⟩
        = { replies := (fun _ => ["Hello"]) (⟨111, "A", "B"⟩ : Chat), warnings := [] })
      ∧ (check_id (some [111]) (fun _ => ["Hello"]) ⟨999, "A", "B"⟩
        = { replies := [], warnings := [warnMsg ⟨999, "A", "B"⟩] }) :=
  ⟨(access_gate (some [111]) (fun _ => ["Hello"]) ⟨111, "A", "B"⟩).1
      ⟨[111], rfl, by decide, by decide⟩,
    (access_gate (some [111]) (fun _ => ["Hello"]) ⟨999, "A", "B"⟩).2.1
      (by rintro ⟨l, hl, -, hmem⟩; injection hl with hl; subst hl; revert hmem; decide)⟩

/-- C6 counterexample: for the departure at 09:59:00 against now 10:00:00
(60 seconds in the past), the claim's absolute-difference formula gives
1 minute, but the code stores 1439 minutes: `(time - now).seconds`
normalizes the negative difference to 86340, it does not take the absolute
value. -/
theorem abs_delta_counterexample :
    get_connections ⟨2024, 1, 1, 10, 0, 0⟩
        [⟨"A", "X", "2024.01.01.09:59:00", []⟩] ["X"]
      = some [⟨"A", "X", "09:59", DeltaVal.pair 1439 0⟩]
    ∧ strptimeYmdHMS "2024.01.01.09:59:00" = some ⟨2024, 1, 1, 9, 59, 0⟩
    ∧ toSecs ⟨2024, 1, 1, 9, 59, 0⟩ < toSecs ⟨2024, 1, 1, 10, 0, 0⟩
    ∧ (toSecs ⟨2024, 1, 1, 9, 59, 0⟩ - toSecs ⟨2024, 1, 1, 10, 0, 0⟩).natAbs / 60 = 1
    ∧ (1439 : Nat) ≠ 1 := by
  decide

/-- C6 (amended): for a departure up to a day in the past, the delta is
computed from 86400 minus the second difference — the negative difference is
normalized modulo 86400 into a large positive second count — not from the
absolute second difference. -/
theorem past_delta (t now : Int) (h1 : t < now) (h2 : now - t ≤ 86400) :
    pyDelta t now
      = ((86400 - (now - t)).toNat / 60, (86400 - (now - t)).toNat % 60) := by
  unfold pyDelta pySeconds
  have h : (t - now) % 86400 = 86400 - (now - t) := by omega
  rw [h]

/-- Witness for C6 (amended) at the 09:59-against-10:00 instance. -/
theorem past_delta_witness :
    pyDelta (toSecs ⟨2024, 1, 1, 9, 59, 0⟩) (toSecs ⟨2024, 1, 1, 10, 0, 0⟩)
      = ((86400 - (toSecs ⟨2024, 1, 1, 10, 0, 0⟩ - toSecs ⟨2024, 1, 1, 9, 59, 0⟩)).toNat / 60,
         (86400 - (toSecs ⟨2024, 1, 1, 10, 0, 0⟩ - toSecs ⟨2024, 1, 1, 9, 59, 0⟩)).toNat % 60) :=
  past_delta (toSecs ⟨2024, 1, 1, 9, 59, 0⟩) (toSecs ⟨2024, 1, 1, 10, 0, 0⟩)
    (by decide) (by decide)

/-- The allow-list comprehension either converts every entry or stops at a
non-numeric entry of the list. -/
theorem parseIds_sound (l : List String) :
    (∃ ids, parseIds l = Except.ok ids)
      ∨ (∃ e, parseIds l = Except.error (ConfigError.badInt e)
          ∧ pyInt e = none ∧ e ∈ l) := by
  induction l with
  | nil => exact Or.inl ⟨[], rfl⟩
  | cons s ss ih =>
    cases hs : pyInt s with
    | none =>
      exact Or.inr ⟨s, by simp [parseIds, hs], hs, List.mem_cons_self s ss⟩
    | some i =>
      rcases ih with ⟨ids, hid⟩ | ⟨e, he, hpe, hme⟩
      · exact Or.inl ⟨i :: ids, by simp [parseIds, hs, hid, Except.map]⟩
      · exact Or.inr ⟨e, by simp [parseIds, hs, he, Except.map], hpe,
          List.mem_cons_of_mem s hme⟩

/-- A successful allow-list conversion means every entry was numeric. -/
theorem parseIds_ok_all (l : List String) (ids : List Int)
    (h : parseIds l = Except.ok ids) : ∀ x ∈ l, pyInt x ≠ none := by
  induction l generalizing ids with
  | nil => simp
  | cons s ss ih =>
    simp only [parseIds] at h
    cases hs : pyInt s with
    | none =>
      rw [hs] at h
      exact Except.noConfusion h
    | some i =>
      rw [hs] at h
      intro x hx
      rcases List.mem_cons.mp hx with rfl | hx2
      · rw [hs]
        exact Option.noConfusion
      · cases hss : parseIds ss with
        | error e =>
          rw [hss] at h
          exact Except.noConfusion h
        | ok ids2 => exact ih ids2 hss x hx2

/-- A failing allow-list conversion is always a bad-entry failure. -/
theorem parseIds_error_shape (l : List String) (e : ConfigError)
    (h : parseIds l = Except.error e) :
    ∃ x, e = ConfigError.badInt x ∧ pyInt x = none ∧ x ∈ l := by
  rcases parseIds_sound l with ⟨ids, hok⟩ | ⟨x, hx, hpx, hmx⟩
  · rw [hok] at h
    exact Except.noConfusion h
  · rw [hx] at h
    injection h with h2
    exact ⟨x, h2.symm, hpx, hmx⟩

/-- Any non-numeric entry makes the allow-list conversion fail on a
non-numeric entry of the list. -/
theorem parseIds_bad (l : List String) (h : ∃ x ∈ l, pyInt x = none) :
    ∃ e, parseIds l = Except.error (ConfigError.badInt e)
      ∧ pyInt e = none ∧ e ∈ l := by
  rcases parseIds_sound l with ⟨ids, hid⟩ | he
  · obtain ⟨x, hx, hpx⟩ := h
    exact absurd hpx (parseIds_ok_all l ids hid x hx)
  · exact he

/-- On a config file holding the six standard keys, `read_config` reduces to
the allow-list conversion: token and stops pass through, the direction
values are split on commas. -/
theorem read_config_mkConfigFile (token idsStr wp dwp hm dh : String) :
    read_config (mkConfigFile token idsStr wp dwp hm dh)
      = match parseIds (pySplit ',' idsStr) with
        | Except.error e => Except.error e
        | Except.ok ids =>
          Except.ok
            { token := token, home := hm, direction_home := pySplit ',' dh,
              workplace := wp, direction_workplace := pySplit ',' dwp,
              ids := ids } := rfl

/-- C7 counterexample: loading a config whose direction_home value is
"A, B" yields the untrimmed list entries "A" and " B": the second entry
keeps its leading space, so entries are not trimmed (and the result is the
split list, not a set of trimmed names). -/
theorem trimmed_entries_counterexample :
    read_config (mkConfigFile "tok" "111" "Hbf" "Schkeuditz" "Heim" "A, B")
        = Except.ok
            { token := "tok", home := "Heim",
              direction_home := ["A", " B"], workplace := "Hbf",
              direction_workplace := ["Schkeuditz"], ids := [111] }
      ∧ " B" ∈ (["A", " B"] : List String)
      ∧ (" B").data.head? = some ' '
      ∧ (" B" : String) ≠ "B" :=
  ⟨rfl, by decide, by decide, by decide⟩

/-- C7 (amended): the loader parses each comma-separated destination value
into the list of the substrings between the commas, without trimming the
entries, and loading a written-out config with known values reproduces
exactly those values (token and stop names unchanged, allow-list converted,
directions split on commas). -/
theorem config_roundtrip (token idsStr wp dwp hm dh : String) (ids : List Int)
    (h : parseIds (pySplit ',' idsStr) = Except.ok ids) :
    read_config (mkConfigFile token idsStr wp dwp hm dh)
      = Except.ok
          { token := token, home := hm, direction_home := pySplit ',' dh,
            workplace := wp, direction_workplace := pySplit ',' dwp,
            ids := ids } := by
  rw [read_config_mkConfigFile, h]

/-- Witness for C7 (amended) with concrete values, including an entry with
a leading space that is reproduced verbatim. -/
theorem config_roundtrip_witness :
    read_config (mkConfigFile "tok" "111,222" "Hbf" "Schkeuditz,Plagwitz" "Heim" "A, B")
      = Except.ok
          { token := "tok", home := "Heim",
            direction_home := pySplit ',' "A, B", workplace := "Hbf",
            direction_workplace := pySplit ',' "Schkeuditz,Plagwitz",
            ids := [111, 222] } :=
  config_roundtrip "tok" "111,222" "Hbf" "Schkeuditz,Plagwitz" "Heim" "A, B"
    [111, 222] rfl

/-- C8: the loader always yields a structured config or an error naming the
missing section, the missing key, or a non-numeric allow-list entry; and
whenever the authentication keys are present but some allow-list entry is
non-numeric, it fails with a bad-entry error on such an entry. -/
theorem read_config_total (cf : ConfigFile) :
    ((∃ c, read_config cf = Except.ok c)
      ∨ (∃ s, read_config cf = Except.error (ConfigError.missingSection s)
          ∧ getSection cf s = none)
      ∨ (∃ k sec secName, read_config cf = Except.error (ConfigError.missingKey k)
          ∧ getSection cf secName = some sec ∧ getKey sec k = none)
      ∨ (∃ e, read_config cf = Except.error (ConfigError.badInt e) ∧ pyInt e = none))
    ∧ (∀ auth tok idsStr, getSection cf "AUTHENTICATION" = some auth →
        getKey auth "token" = some tok →
        getKey auth "allowed_ids" = some idsStr →
        (∃ x ∈ pySplit ',' idsStr, pyInt x = none) →
        ∃ e, read_config cf = Except.error (ConfigError.badInt e)
          ∧ pyInt e = none ∧ e ∈ pySplit ',' idsStr) := by
  constructor
  · simp only [read_config]
    split
    · rename_i hs
      exact Or.inr (Or.inl ⟨"AUTHENTICATION", rfl, hs⟩)
    · rename_i auth hs
      split
      · rename_i hk
        exact Or.inr (Or.inr (Or.inl ⟨"token", auth, "AUTHENTICATION", rfl, hs, hk⟩))
      · rename_i tok htok
        split
        · rename_i hk
          exact Or.inr (Or.inr (Or.inl ⟨"allowed_ids", auth, "AUTHENTICATION", rfl, hs, hk⟩))
        · rename_i idsStr hids
          split
          · rename_i e he
            obtain ⟨x, rfl, hpx, -⟩ := parseIds_error_shape _ e he
            exact Or.inr (Or.inr (Or.inr ⟨x, rfl, hpx⟩))
          · rename_i ids hok
            split
            · rename_i hs2
              exact Or.inr (Or.inl ⟨"LOCATIONS", rfl, hs2⟩)
            · rename_i loc hs2
              split
              · rename_i hk
                exact Or.inr (Or.inr (Or.inl ⟨"workplace", loc, "LOCATIONS", rfl, hs2, hk⟩))
              · rename_i wp hwp
                split
                · rename_i hk
                  exact Or.inr (Or.inr (Or.inl
                    ⟨"direction_workplace", loc, "LOCATIONS", rfl, hs2, hk⟩))
                · rename_i dwp hdwp
                  split
                  · rename_i hk
                    exact Or.inr (Or.inr (Or.inl ⟨"home", loc, "LOCATIONS", rfl, hs2, hk⟩))
                  · rename_i hm hhm
                    split
                    · rename_i hk
                      exact Or.inr (Or.inr (Or.inl
                        ⟨"direction_home", loc, "LOCATIONS", rfl, hs2, hk⟩))
                    · rename_i dh hdh
                      exact Or.inl ⟨_, rfl⟩
  · intro auth tok idsStr hsec htok hids hbad
    obtain ⟨e, he, hpe, hme⟩ := parseIds_bad (pySplit ',' idsStr) hbad
    refine ⟨e, ?_, hpe, hme⟩
    simp only [read_config, hsec, htok, hids, he]

/-- Witness for C8: a config whose allow-list value is the single
non-numeric entry abc fails with a bad-entry error on abc. -/
theorem read_config_total_witness :
    ∃ e, read_config (mkConfigFile "tok" "abc" "Hbf" "S" "Heim" "D")
        = Except.error (ConfigError.badInt e)
      ∧ pyInt e = none ∧ e ∈ pySplit ',' "abc" :=
  (read_config_total (mkConfigFile "tok" "abc" "Hbf" "S" "Heim" "D")).2
    [("token", "tok"), ("allowed_ids", "abc")] "tok" "abc" rfl rfl rfl
    ⟨"abc", by decide, rfl⟩

end Havag
